import Mathlib

/-!
Shallow embedding of the helium/tock core runtime, covering the event
bitset (src/chips/cc26x2/src/events.rs), the two event dispatch loops
(src/chips/cc26x2/src/chip.rs and src/boards/helium-feather/src/main.rs),
the cc26x2 UART driver (src/chips/cc26x2/src/uart.rs), the multimode
radio driver (src/chips/cc26x2/src/radio/multimode.rs) and the Helium
capsule (src/capsules/src/helium/driver.rs).

Machine integers are modelled as `Nat` with explicit reduction modulo
`2 ^ 64` (resp. masking) exactly where the source relies on fixed width.
-/

namespace Tock

/-- 2^64, the modulus of the `u64` event word. -/
def U64_MOD : Nat := 2 ^ 64

/-- Event priorities of `src/chips/cc26x2/src/events.rs` (the enum declared
next to the bitset operations; note UART1 = 1 sits below UART0 = 2 and the
value 5 is unmapped). -/
inductive EVENT_PRIORITY
  | Gpio
  | UART0
  | UART1
  | AON_RTC
  | RTC
  | I2C0
  | AON_PROG
  | RF_CORE_HW
  | RF_CMD_ACK
  | RF_CORE_CPE0
  | RF_CORE_CPE1
  | OSC
  deriving DecidableEq

/-- The discriminant value of each `EVENT_PRIORITY` variant, as assigned in
events.rs. -/
def EVENT_PRIORITY.val : EVENT_PRIORITY → Nat
  | .Gpio => 0
  | .UART0 => 2
  | .UART1 => 1
  | .AON_RTC => 3
  | .RTC => 4
  | .I2C0 => 6
  | .AON_PROG => 7
  | .RF_CORE_HW => 8
  | .RF_CMD_ACK => 9
  | .RF_CORE_CPE0 => 10
  | .RF_CORE_CPE1 => 11
  | .OSC => 12

/-- `EVENT_PRIORITY::from_u8` as generated by `enum_from_primitive!`:
the partial inverse of the discriminant assignment. -/
def EVENT_PRIORITY.from_u8 : Nat → Option EVENT_PRIORITY
  | 0 => some .Gpio
  | 2 => some .UART0
  | 1 => some .UART1
  | 3 => some .AON_RTC
  | 4 => some .RTC
  | 6 => some .I2C0
  | 7 => some .AON_PROG
  | 8 => some .RF_CORE_HW
  | 9 => some .RF_CMD_ACK
  | 10 => some .RF_CORE_CPE0
  | 11 => some .RF_CORE_CPE1
  | 12 => some .OSC
  | _ => none

/-- The list of discriminant values that are mapped by `from_u8`. -/
def prioVals : List Nat := [0, 1, 2, 3, 4, 6, 7, 8, 9, 10, 11, 12]

/-- `events::has_event`: `EVENTS != 0`. -/
def has_event (w : Nat) : Bool := w != 0

/-- `events::set_event_flag`: `val |= 0b1 << (priority as u8) as u64`. -/
def set_event_flag (p : EVENT_PRIORITY) (w : Nat) : Nat :=
  w ||| (1 <<< p.val)

/-- `events::clear_event_flag`: the source line is
`val &= !0b1 << (priority as u8) as u64`.  In Rust, unary `!` binds
tighter than `<<`, so the mask is `(!1u64) << p`, i.e.
`((2^64 - 2) << p) mod 2^64` — NOT the complement of `1 << p`. -/
def clear_event_flag (p : EVENT_PRIORITY) (w : Nat) : Nat :=
  w &&& (((U64_MOD - 2) <<< p.val) % U64_MOD)

/-- The mask the spec ascribes to `clear(p)`: `bits &= !(1 << p)`
(complement of a single bit inside a 64-bit word).  Kept separately from
`clear_event_flag` so the two can be compared. -/
def clear_flag_spec (p : EVENT_PRIORITY) (w : Nat) : Nat :=
  w &&& ((U64_MOD - 1) ^^^ (1 <<< p.val))

/-- The scanning loop inside `events::next_pending`: shift the flag word
right, counting, until the low bit is set; `none` when the word runs out. -/
def nextPendingLoop (flags : Nat) (count : Nat) : Option Nat :=
  if h : flags = 0 then none
  else if flags % 2 = 1 then some count
  else nextPendingLoop (flags / 2) (count + 1)
termination_by flags
decreasing_by exact Nat.div_lt_self (Nat.pos_of_ne_zero h) one_lt_two

/-- `events::next_pending`.  The source calls
`EVENT_PRIORITY::from_u8(count).expect("Unmapped EVENT_PRIORITY")` on the
first set bit; the `expect` panic is modelled as `Except.error`. -/
def next_pending (w : Nat) : Except String (Option EVENT_PRIORITY) :=
  match nextPendingLoop w 0 with
  | none => .ok none
  | some c =>
    match EVENT_PRIORITY.from_u8 c with
    | some p => .ok (some p)
    | none => .error "Unmapped EVENT_PRIORITY"

/-- Embedding of `next_pending` in state-passing form: the function only
performs an `atomic_read` of `EVENTS`, so the event word it leaves behind
is the word it was given. -/
def next_pending_st (w : Nat) : Except String (Option EVENT_PRIORITY) × Nat :=
  (next_pending w, w)

/-- Dispatch loop of `Cc26X2::service_pending_interrupts`
(src/chips/cc26x2/src/chip.rs): `while let Some(event) = events::next_pending()`
— the pending set is re-read after every clear + dispatch.  The dispatched
priorities are collected as a trace; `fuel` bounds the number of iterations
and the loop is re-entered only while fuel remains. -/
def service_pending_interrupts (fuel : Nat) (w : Nat) :
    Except String (List EVENT_PRIORITY × Nat) :=
  match fuel with
  | 0 => .ok ([], w)
  | fuel + 1 =>
    match next_pending w with
    | .error e => .error e
    | .ok none => .ok ([], w)
    | .ok (some p) =>
      match service_pending_interrupts fuel (clear_event_flag p w) with
      | .error e => .error e
      | .ok (t, w2) => .ok (p :: t, w2)

/-- Event priorities of the helium-feather board
(src/boards/helium-feather/src/event_priority.rs); note the values differ
from the cc26x2 crate's enum (UART0 = 1 here, GPIO = 14). -/
inductive FeatherPriority
  | Gpio
  | UART0
  | UART1
  | AON_RTC
  | RTC
  | I2C0
  | AON_PROG
  | OSC
  | RF_CMD_ACK
  | RF_CORE_CPE0
  | RF_CORE_CPE1
  | RF_CORE_HW
  | AUX_ADC
  deriving DecidableEq

/-- Discriminant values of the helium-feather priority enum. -/
def FeatherPriority.val : FeatherPriority → Nat
  | .Gpio => 14
  | .UART0 => 1
  | .UART1 => 2
  | .AON_RTC => 3
  | .RTC => 4
  | .I2C0 => 6
  | .AON_PROG => 7
  | .OSC => 8
  | .RF_CMD_ACK => 9
  | .RF_CORE_CPE0 => 10
  | .RF_CORE_CPE1 => 11
  | .RF_CORE_HW => 12
  | .AUX_ADC => 13

/-- Partial inverse of `FeatherPriority.val` (the board enum's `from_u8`). -/
def FeatherPriority.from_u8 : Nat → Option FeatherPriority
  | 14 => some .Gpio
  | 1 => some .UART0
  | 2 => some .UART1
  | 3 => some .AON_RTC
  | 4 => some .RTC
  | 6 => some .I2C0
  | 7 => some .AON_PROG
  | 8 => some .OSC
  | 9 => some .RF_CMD_ACK
  | 10 => some .RF_CORE_CPE0
  | 11 => some .RF_CORE_CPE1
  | 12 => some .RF_CORE_HW
  | 13 => some .AUX_ADC
  | _ => none

/-- Modelled from the spec: `cortexm::events::next_pending` as used by the
helium-feather board (the generic cortexm events module is not under src/).
Per section 4.2 it returns the lowest set bit's priority without clearing
it. -/
def feather_next_pending (w : Nat) : Option FeatherPriority :=
  match nextPendingLoop w 0 with
  | none => none
  | some c => FeatherPriority.from_u8 c

/-- Modelled from the spec: `cortexm::events::clear_event_flag` as used by
the helium-feather board (not under src/); section 4.2 gives
`bits &= !(1 << p)`. -/
def feather_clear_event_flag (p : FeatherPriority) (w : Nat) : Nat :=
  w &&& ((U64_MOD - 1) ^^^ (1 <<< p.val))

/-- Loop body of the helium-feather `service_pending_events`
(src/boards/helium-feather/src/main.rs): the `while let` guard tests the
local `pending_event`, which is never reassigned in the body, so the same
value is matched on every iteration; only `fuel` bounds the recursion.
Returns the dispatch trace and the final event word. -/
def featherLoopAux : Nat → Option FeatherPriority → Nat → List FeatherPriority × Nat
  | 0, _, w => ([], w)
  | _ + 1, none, w => ([], w)
  | fuel + 1, some e, w =>
    let w1 := feather_clear_event_flag e w
    let r := featherLoopAux fuel (some e) w1
    (e :: r.1, r.2)

/-- Dispatcher `FeatherPlatform::service_pending_events`
(src/boards/helium-feather/src/main.rs): `events::next_pending()` is
consulted exactly once, before the loop, and bound to `pending_event`. -/
def service_pending_events (fuel : Nat) (w : Nat) : List FeatherPriority × Nat :=
  featherLoopAux fuel (feather_next_pending w) w

/-- Bytes are modelled as naturals below 256 where it matters. -/
abbrev Byte := Nat

/-- Kernel ReturnCode values (section 7 error taxonomy), restricted to the
codes produced by the embedded functions. -/
inductive ReturnCode
  | SUCCESS
  | FAIL
  | EBUSY
  | ENOSUPPORT
  | EINVAL
  | ENOMEM
  | ERESERVE
  | EOFF
  deriving DecidableEq

/-- Modelled from the spec: the buffer object inside the kernel HIL
receive request (`kernel/src/hil/uart.rs` is not under src/).  Section 3
describes a request as `{buf, index, len, ...}` where `index` counts the
filled bytes and the request is completed when `index = len`; `data` is the
filled prefix (so `index = data.length` and `len = cap`), and a push stores
a byte and advances `index` only while `index < len` (the buffer cannot
grow past its capacity). -/
structure RxBuffer where
  data : List Byte
  cap : Nat
  deriving DecidableEq

/-- Index of an RX buffer: the count of filled bytes. -/
def RxBuffer.index (r : RxBuffer) : Nat := r.data.length

/-- Push a byte into the request buffer (no-op on a full buffer). -/
def RxBuffer.push (r : RxBuffer) (b : Byte) : RxBuffer :=
  if r.data.length < r.cap then { r with data := r.data ++ [b] } else r

/-- Completion test of the request buffer: `index = len`. -/
def RxBuffer.request_completed (r : RxBuffer) : Bool := r.cap ≤ r.data.length

/-- Modelled from the spec: the kernel HIL `RxRequest` as used by
src/chips/cc26x2/src/uart.rs, i.e. the buffer object `req` together with
the `new_line_return` flag the driver sets on seeing a newline. -/
structure RxRequest where
  req : RxBuffer
  new_line_return : Bool
  deriving DecidableEq

/-- Modelled from the spec: the kernel HIL `TxRequest`
(`kernel/src/hil/uart.rs` is not under src/): a buffer with a read index;
`pop` yields the byte at `index` and advances it, and the request is
completed when every byte has been popped. -/
structure TxRequest where
  buf : List Byte
  index : Nat
  deriving DecidableEq

/-- Completion test of a TX request: all bytes popped. -/
def TxRequest.request_completed (t : TxRequest) : Bool := t.buf.length ≤ t.index

/-- Pop the next byte of a TX request. -/
def TxRequest.pop (t : TxRequest) : Option Byte × TxRequest :=
  if t.index < t.buf.length then
    (some (t.buf.getD t.index 0), { t with index := t.index + 1 })
  else (none, t)

/-- State of one cc26x2 UART peripheral (src/chips/cc26x2/src/uart.rs)
together with its observable hardware interface: `rx_fifo` holds the bytes
waiting in the hardware receive FIFO, `tx_fifo_space` the free slots of the
transmit FIFO, and `dr_writes` the sequence of bytes written to the data
register.  The `imsc_*` fields are the interrupt-mask bits the driver
toggles. -/
structure UartState where
  tx : Option TxRequest
  rx : Option RxRequest
  imsc_tx : Bool
  imsc_eot : Bool
  imsc_rx : Bool
  imsc_rx_timeout : Bool
  receiving_word : Bool
  rx_fifo : List Byte
  tx_fifo_space : Nat
  dr_writes : List Byte
  deriving DecidableEq

/-- Flag check `tx_fifo_not_full` (negation of FR.TX_FIFO_FULL). -/
def UartState.tx_fifo_not_full (st : UartState) : Bool := st.tx_fifo_space != 0

/-- Flag check `rx_fifo_not_empty` (negation of FR.RX_FIFO_EMPTY). -/
def UartState.rx_fifo_not_empty (st : UartState) : Bool := !st.rx_fifo.isEmpty

/-- Write one byte to the data register (`UART::write`). -/
def UartState.write (st : UartState) (b : Byte) : UartState :=
  { st with dr_writes := st.dr_writes ++ [b],
            tx_fifo_space := st.tx_fifo_space - 1 }

/-- Function `transmit_buffer` (src/chips/cc26x2/src/uart.rs, impl
`uart::Transmit`): enables the TX and end-of-transmission interrupts,
writes one first byte when the FIFO has room and the request is non-empty,
then stores the request in the `tx` cell — `MapCell::put`, which replaces
any request already armed — and returns SUCCESS unconditionally (the cell
is never checked for occupancy). -/
def transmit_buffer (st : UartState) (tx : TxRequest) : ReturnCode × UartState :=
  let st1 := { st with imsc_tx := true, imsc_eot := true }
  if st.tx_fifo_not_full && !tx.request_completed then
    match tx.pop with
    | (some item, tx') => (ReturnCode.SUCCESS, { st1.write item with tx := some tx' })
    | (none, tx') => (ReturnCode.SUCCESS, { st1 with tx := some tx' })
  else (ReturnCode.SUCCESS, { st1 with tx := some tx })

/-- RX drain loop inside `handle_interrupt` (src/chips/cc26x2/src/uart.rs):
while the RX FIFO is non-empty, pop a byte; a newline byte (0x0A) sets
`new_line_return` before the byte is pushed; after the push, if the request
completed or a newline was seen, a NUL byte is pushed (when the newline was
seen) and the loop breaks.  Returns the updated request and the bytes left
in the FIFO. -/
def rxDrainLoop : List Byte → RxRequest → RxRequest × List Byte
  | [], rx => (rx, [])
  | b :: rest, rx =>
    let rx := if b == 10 then { rx with new_line_return := true } else rx
    let rx := { rx with req := rx.req.push b }
    if rx.req.request_completed || rx.new_line_return then
      let rx := if rx.new_line_return then { rx with req := rx.req.push 0 } else rx
      (rx, rest)
    else rxDrainLoop rest rx

/-- Function `handle_interrupt` (src/chips/cc26x2/src/uart.rs, impl
`uart::InterruptHandler`): services an armed RX request from the RX FIFO,
then services an armed TX request — note the TX body is an `if`, a single
conditional write per invocation.  Completed requests are returned and the
corresponding interrupt-mask bits cleared; the NVIC and ICR effects carry
no model-visible state. -/
def handle_interrupt (st : UartState) :
    Option TxRequest × Option RxRequest × UartState :=
  let (rx_complete, st) :=
    match st.rx with
    | none => ((none : Option RxRequest), st)
    | some rx =>
      let st := { st with rx := none }
      let (rx, fifo) := rxDrainLoop st.rx_fifo rx
      let st := { st with rx_fifo := fifo }
      if rx.req.request_completed || rx.new_line_return then
        (some rx, { st with imsc_rx := false, imsc_rx_timeout := false })
      else
        (none, { st with rx := some rx })
  let (tx_complete, st) :=
    match st.tx with
    | none => ((none : Option TxRequest), st)
    | some tx =>
      let st := { st with tx := none }
      let (st, tx) :=
        if st.tx_fifo_not_full && !tx.request_completed then
          match tx.pop with
          | (some item, tx') => (st.write item, tx')
          | (none, tx') => (st, tx')
        else (st, tx)
      if tx.request_completed then
        (some tx, { st with imsc_tx := false, imsc_eot := false })
      else
        (none, { st with tx := some tx })
  (tx_complete, rx_complete, st)

/-- PA variants of `kernel::hil::rfcore::PaType` as used by the multimode
radio. -/
inductive PaType
  | None
  | Internal
  | Skyworks
  deriving DecidableEq

/-- A submitted radio-operation TX command: the call-dependent fields of
`prop::CommandTx` as filled in by `replace_and_send_tx_buffer` (the other
fields are constants in the source). -/
structure CmdTx where
  command_no : Nat
  packet_len : Nat
  payload : List Byte
  deriving DecidableEq

/-- State of the multimode radio driver
(src/chips/cc26x2/src/radio/multimode.rs).  `submitted` records the
radio-operation commands handed to `rfc.send_sync` and `direct_cmds` the
direct commands `(opcode, parameter)` handed to `rfc.send_direct`;
`direct_ok` is the hardware's answer to a direct command (an oracle). -/
structure RadioState where
  tx_buf : Option (List Byte)
  tx_power : Nat
  pa_type : PaType
  schedule_powerdown : Bool
  powered : Bool
  has_tx_client : Bool
  has_rx_client : Bool
  submitted : List CmdTx
  direct_cmds : List (Nat × Nat)
  direct_ok : Bool
  deriving DecidableEq

/-- Initial driver state built by `Radio::new`. -/
def radioNew : RadioState :=
  { tx_buf := none, tx_power := 0xFFFF, pa_type := .None,
    schedule_powerdown := false, powered := false,
    has_tx_client := false, has_rx_client := false,
    submitted := [], direct_cmds := [], direct_ok := true }

/-- Function `replace_and_send_tx_buffer` (multimode.rs): copies
`buf[0..len]` into the static TX_BUF, stores the caller's buffer in the
`tx_buf` cell and submits a `CommandTx` (opcode 0x3801, `packet_len = len`). -/
def replace_and_send_tx_buffer (st : RadioState) (buf : List Byte) (len : Nat) :
    RadioState :=
  { st with tx_buf := some buf,
            submitted := st.submitted ++ [⟨0x3801, len, buf.take len⟩] }

/-- Function `transmit` (multimode.rs, impl `rfcore::RadioDriver`). -/
def transmit (st : RadioState) (buf : List Byte) (frame_len : Nat) :
    (ReturnCode × Option (List Byte)) × RadioState :=
  if 240 < frame_len then ((.ENOSUPPORT, some buf), st)
  else if st.tx_buf.isNone then
    ((.SUCCESS, none), replace_and_send_tx_buffer st buf frame_len)
  else ((.EBUSY, some buf), st)

/-- Function `power_down` (multimode.rs): disables the RF core. -/
def power_down (st : RadioState) : RadioState := { st with powered := false }

/-- Handler `command_done` (multimode.rs, impl `rfc::RFCoreClient`):
optionally powers the core down, then takes the TX buffer and — with a
TxClient installed — invokes `transmit_event(tbuf, SUCCESS)`, modelled as
the returned event. -/
def command_done (st : RadioState) : Option (List Byte × ReturnCode) × RadioState :=
  let st :=
    if st.schedule_powerdown then { power_down st with schedule_powerdown := false }
    else st
  match st.tx_buf with
  | some tbuf =>
    ((if st.has_tx_client then some (tbuf, .SUCCESS) else none),
     { st with tx_buf := none })
  | none => (none, st)

/-- The two static receive buffers of multimode.rs that can be handed to
the RxClient: `RX_PAYLOAD` is `[u8; 255]` and `RX_BUF` is `[u8; 600]`. -/
inductive RadioRxBuf
  | RX_PAYLOAD
  | RX_BUF
  deriving DecidableEq

/-- Length of each static receive buffer. -/
def RadioRxBuf.size : RadioRxBuf → Nat
  | .RX_PAYLOAD => 255
  | .RX_BUF => 600

/-- Arguments of one `RxClient::receive_event` invocation. -/
structure RxEvent where
  buf : RadioRxBuf
  frame_len : Nat
  crc_valid : Bool
  status : ReturnCode
  deriving DecidableEq

/-- Handler `rx_ok` (multimode.rs): copies the queue entry's payload into
the static RX_PAYLOAD, puts it into the `rx_buf` cell and immediately takes
it back; with an RxClient installed it invokes
`receive_event(rbuf, rbuf.len(), crc_valid, SUCCESS)` with
`rbuf.len() = 255` and `crc_valid = true`. -/
def rx_ok (st : RadioState) : Option RxEvent × RadioState :=
  ((if st.has_rx_client then
      some ⟨.RX_PAYLOAD, RadioRxBuf.RX_PAYLOAD.size, true, .SUCCESS⟩
    else none), st)

/-- Handler `rx_nok` (multimode.rs): puts the raw static RX_BUF into the
`rx_buf` cell and takes it back; with an RxClient installed it invokes
`receive_event(rbuf, rbuf.len(), crc_valid, SUCCESS)` — the source sets
`let crc_valid = true;` here, and `rbuf.len() = 600`. -/
def rx_nok (st : RadioState) : Option RxEvent × RadioState :=
  ((if st.has_rx_client then
      some ⟨.RX_BUF, RadioRxBuf.RX_BUF.size, true, .SUCCESS⟩
    else none), st)

/-- The event the spec's words prescribe for `rx_nok`: exactly the event
`rx_ok` delivers with `crc_valid` replaced by `false`.  Kept separately so
it can be compared with `rx_nok`. -/
def rx_nok_spec (st : RadioState) : Option RxEvent × RadioState :=
  match rx_ok st with
  | (some e, st') => (some { e with crc_valid := false }, st')
  | (none, st') => (none, st')

/-- Function `set_pa_restriction` (multimode.rs): with a Skyworks front
end, a stored `tx_power` above 0x504D is clamped to 0x504D; the other PA
variants leave it untouched. -/
def set_pa_restriction (st : RadioState) : RadioState :=
  match st.pa_type with
  | .None => st
  | .Internal => st
  | .Skyworks =>
    if 0x504D < st.tx_power then { st with tx_power := 0x504D } else st

/-- Function `set_tx_power` (multimode.rs, impl `rfcore::RadioConfig`):
stores the requested power, applies the PA restriction, then issues direct
command 0x0010 with the (possibly clamped) stored value. -/
def set_tx_power (st : RadioState) (power : Nat) : ReturnCode × RadioState :=
  let st := { st with tx_power := power }
  let st := set_pa_restriction st
  let st := { st with direct_cmds := st.direct_cmds ++ [(0x0010, st.tx_power)] }
  ((if st.direct_ok then .SUCCESS else .FAIL), st)

/-- Function `power_up` (multimode.rs), restricted to its state-visible
effects in this model: enables the core, applies the PA restriction, and
runs CMD_SETUP with the (restricted) `tx_power` — recorded here as a
`CmdTx` with opcode 0x0802 carrying `tx_power` in `packet_len`. -/
def power_up (st : RadioState) : RadioState :=
  let st := { st with powered := true }
  let st := set_pa_restriction st
  { st with submitted := st.submitted ++ [⟨0x0802, st.tx_power, []⟩] }

/-- Payload encodings of the Helium framer
(src/capsules/src/helium/driver.rs documents them on `command`). -/
inductive PayloadType
  | None
  | Packetizer
  | Cauterize
  | LDPC
  deriving DecidableEq

/-- Modelled from the spec: `PayloadType::from_cmd`
(capsules/src/helium/framer.rs is not under src/); the driver's doc comment
lists the accepted encodings as None = 0x00, Packetizer = 0x01 and
Cauterize = 0x10. -/
def PayloadType.from_cmd : Nat → Option PayloadType
  | 0x00 => some .None
  | 0x01 => some .Packetizer
  | 0x10 => some .Cauterize
  | _ => none

/-- Per-process grant state of the Helium driver (struct `App` in
src/capsules/src/helium/driver.rs), restricted to the fields the embedded
operations touch: the pending transmission, and presence flags for the
`app_write` slice and the TX callback. -/
structure HeliumApp where
  pending_tx : Option (Nat × PayloadType)
  has_app_write : Bool
  has_tx_callback : Bool
  deriving DecidableEq

/-- Outcomes of the device layer (`device::Device` lives in capsule files
outside the embedded core): whether `prepare_data_frame` succeeds, the
ReturnCode of the payload-framing step, the ReturnCode of
`device.transmit`, and whether `transmit` hands the kernel buffer back. -/
structure DeviceOracle where
  prepare_ok : Bool
  payload_rc : ReturnCode
  transmit_rc : ReturnCode
  transmit_returns_buf : Bool
  deriving DecidableEq

/-- State of the Helium driver (struct `Helium` in
src/capsules/src/helium/driver.rs): the grant region per process id (with
`order` the grant iteration order), the `current_app` serialisation cell,
presence of the `kernel_tx` buffer, the driver's `device_id`, and the log
of error callbacks scheduled by `perform_tx_async`. -/
structure HeliumState where
  order : List Nat
  apps : Nat → HeliumApp
  current_app : Option Nat
  kernel_tx : Bool
  device_id : Nat
  tx_callbacks : List (Nat × ReturnCode)

/-- Update one process's grant state. -/
def HeliumState.updApp (st : HeliumState) (a : Nat) (f : HeliumApp → HeliumApp) :
    HeliumState :=
  { st with apps := fun x => if x = a then f (st.apps x) else st.apps x }

/-- Function `get_next_tx_if_idle` (driver.rs): `None` whenever
`current_app` is set; otherwise the first process in grant order with a
pending transmission. -/
def get_next_tx_if_idle (st : HeliumState) : Option Nat :=
  if st.current_app.isSome then none
  else st.order.find? (fun a => (st.apps a).pending_tx.isSome)

/-- Function `perform_tx_sync` (driver.rs).  The grant re-entry performed
by `do_with_app` is modelled transparently (no claim below exercises a
nested grant enter). -/
def perform_tx_sync (dev : DeviceOracle) (st : HeliumState) (appid : Nat) :
    ReturnCode × HeliumState :=
  match (st.apps appid).pending_tx with
  | none => (.SUCCESS, st)
  | some _ =>
    let st := st.updApp appid (fun a => { a with pending_tx := none })
    if !st.kernel_tx then (.ENOMEM, st)
    else
      let st := { st with kernel_tx := false }
      if !dev.prepare_ok then (.FAIL, { st with kernel_tx := true })
      else if !(st.apps appid).has_app_write then (.EINVAL, st)
      else
        let st := st.updApp appid (fun a => { a with has_app_write := false })
        if dev.payload_rc != .SUCCESS then (dev.payload_rc, st)
        else
          let st :=
            if dev.transmit_returns_buf then { st with kernel_tx := true } else st
          let st :=
            if dev.transmit_rc == .SUCCESS then { st with current_app := some appid }
            else st
          (dev.transmit_rc, st)

/-- Function `perform_tx_async` (driver.rs): on a failing synchronous
attempt, schedule the app's TX callback with the error. -/
def perform_tx_async (dev : DeviceOracle) (st : HeliumState) (appid : Nat) :
    HeliumState :=
  let r := perform_tx_sync dev st appid
  if r.1 != .SUCCESS then
    { r.2 with tx_callbacks := r.2.tx_callbacks ++ [(appid, r.1)] }
  else r.2

/-- Function `do_next_tx_sync` (driver.rs): SUCCESS when
`get_next_tx_if_idle` yields nothing (in particular whenever `current_app`
is set); synchronous transmission when the chosen app is the caller,
asynchronous otherwise. -/
def do_next_tx_sync (dev : DeviceOracle) (st : HeliumState) (new_appid : Nat) :
    ReturnCode × HeliumState :=
  match get_next_tx_if_idle st with
  | none => (.SUCCESS, st)
  | some appid =>
    if appid = new_appid then perform_tx_sync dev st appid
    else (.SUCCESS, perform_tx_async dev st appid)

/-- The `HeliumCommand::SetNextTx` arm of `Driver::command` (driver.rs):
EBUSY when the calling process already has a pending transmission;
otherwise queue `(device_id & 0xFF, payload type)` and run
`do_next_tx_sync`. -/
def set_next_tx (dev : DeviceOracle) (st : HeliumState) (appid : Nat)
    (payload_type : Nat) : ReturnCode × HeliumState :=
  if (st.apps appid).pending_tx.isSome then (.EBUSY, st)
  else
    match PayloadType.from_cmd payload_type with
    | none => (.FAIL, st)
    | some pl =>
      let st := st.updApp appid
        (fun a => { a with pending_tx := some (st.device_id &&& 0xFF, pl) })
      do_next_tx_sync dev st appid

end Tock

namespace Tock

/-! Theorems for claims C1 and C3 (supporting lemmas first). -/

theorem nextPendingLoop_zero (c : Nat) : nextPendingLoop 0 c = none := by
  unfold nextPendingLoop; simp

theorem nextPendingLoop_spec :
    ∀ f, f ≠ 0 → ∀ c, ∃ k, nextPendingLoop f c = some (c + k) ∧
      f.testBit k = true ∧ ∀ j, j < k → f.testBit j = false := by
  intro f
  induction f using Nat.strong_induction_on with
  | _ f ih =>
    intro hf c
    by_cases hodd : f % 2 = 1
    · refine ⟨0, ?_, ?_, ?_⟩
      · unfold nextPendingLoop; simp [hf, hodd]
      · simpa [Nat.testBit_zero] using hodd
      · intro j hj; omega
    · have hf2 : f / 2 ≠ 0 := by omega
      obtain ⟨k, hk, hbit, hlow⟩ :=
        ih (f / 2) (Nat.div_lt_self (Nat.pos_of_ne_zero hf) one_lt_two) hf2 (c + 1)
      refine ⟨k + 1, ?_, ?_, ?_⟩
      · unfold nextPendingLoop
        simp only [hf, hodd, if_false, dif_neg, ite_false]
        rw [hk]; exact congrArg some (by omega)
      · simpa [Nat.testBit_succ] using hbit
      · intro j hj
        match j with
        | 0 => simpa [Nat.testBit_zero] using hodd
        | j + 1 =>
          have := hlow j (by omega)
          simpa [Nat.testBit_succ] using this

theorem from_u8_of_mem (k : Nat) (hk : k ∈ prioVals) :
    ∃ p : EVENT_PRIORITY, EVENT_PRIORITY.from_u8 k = some p ∧ p.val = k := by
  fin_cases hk <;> exact ⟨_, rfl, rfl⟩

/-- C1: the claim states that `clear_event_flag(p)` leaves the event word
equal to its old value AND-ed with the complement of `1 << p`, clearing
exactly bit p.  Evaluated at priority UART0 (bit 2) and word 0b101: the
source's mask `(!1) << p` (unary `!` binds tighter than `<<` in Rust)
clears bits 0, 1 and 2, giving 0, whereas the claimed mask `!(1 << p)`
leaves bit 0 set, giving 1. -/
theorem clear_event_flag_clears_low_bits :
    clear_event_flag EVENT_PRIORITY.UART0 5 = 0 ∧
    clear_flag_spec EVENT_PRIORITY.UART0 5 = 1 ∧
    clear_event_flag EVENT_PRIORITY.UART0 5 ≠ clear_flag_spec EVENT_PRIORITY.UART0 5 :=
  ⟨by decide, by decide, by decide⟩

theorem featherLoopAux_trace (e : FeatherPriority) :
    ∀ fuel w, (featherLoopAux fuel (some e) w).1 = List.replicate fuel e := by
  intro fuel
  induction fuel with
  | zero => intro w; rfl
  | succ n ih => intro w; simp [featherLoopAux, ih, List.replicate_succ]

theorem nextPendingLoop_two : nextPendingLoop 2 0 = some 1 := by
  rw [nextPendingLoop]; norm_num
  rw [nextPendingLoop]; norm_num

theorem nextPendingLoop_four : nextPendingLoop 4 0 = some 2 := by
  rw [nextPendingLoop]; norm_num
  rw [nextPendingLoop]; norm_num
  rw [nextPendingLoop]; norm_num

/-- C2: the claim states the dispatcher re-enters `next_pending` after
each clear + dispatch and hence drains any initial word, dispatching each
set priority exactly once.  The helium-feather `service_pending_events`
binds `next_pending()` to a local once, before its `while let` loop, and
never reassigns it: started on the word with exactly the UART0 bit set it
dispatches UART0 at every iteration, for any amount of fuel, and never
terminates.  The chip-crate `service_pending_interrupts`, by contrast,
re-reads the set and drains the word with bit 2 set in one dispatch. -/
theorem feather_service_loop_snapshot :
    (∀ fuel, (service_pending_events fuel 2).1 =
      List.replicate fuel FeatherPriority.UART0) ∧
    service_pending_interrupts 2 4 = .ok ([EVENT_PRIORITY.UART0], 0) := by
  constructor
  · intro fuel
    have h : feather_next_pending 2 = some FeatherPriority.UART0 := by
      simp [feather_next_pending, nextPendingLoop_two]; rfl
    simp [service_pending_events, h, featherLoopAux_trace]
  · have h1 : next_pending 4 = .ok (some EVENT_PRIORITY.UART0) := by
      simp [next_pending, nextPendingLoop_four]; rfl
    have h2 : clear_event_flag EVENT_PRIORITY.UART0 4 = 0 := by decide
    have h3 : next_pending 0 = .ok none := by
      simp [next_pending, nextPendingLoop_zero]
    simp [service_pending_interrupts, h1, h2, h3]

/-- C3: for every 64-bit event word whose set bits are all discriminants of
the `EVENT_PRIORITY` enum, `next_pending` returns `Some` of the variant at
the lowest set bit (no bit below it is set), returns `None` exactly on the
zero word, and leaves the word unchanged; `has_event` is true exactly on a
nonzero word. -/
theorem next_pending_lowest_bit (w : Nat) (hw : w < U64_MOD)
    (hvalid : ∀ i, i < 64 → w.testBit i = true → i ∈ prioVals) :
    (w = 0 → next_pending w = .ok none) ∧
    (w ≠ 0 → ∃ p : EVENT_PRIORITY, next_pending w = .ok (some p) ∧
      w.testBit p.val = true ∧ (∀ j, j < p.val → w.testBit j = false)) ∧
    (next_pending_st w).2 = w ∧
    (has_event w = true ↔ w ≠ 0) := by
  refine ⟨?_, ?_, rfl, ?_⟩
  · rintro rfl
    simp [next_pending, nextPendingLoop_zero]
  · intro hne
    obtain ⟨k, hk, hbit, hlow⟩ := nextPendingLoop_spec w hne 0
    rw [Nat.zero_add] at hk
    have hk64 : k < 64 := by
      by_contra hge
      push_neg at hge
      have hlt : w < 2 ^ k :=
        lt_of_lt_of_le hw (Nat.pow_le_pow_right (by norm_num) hge)
      rw [Nat.testBit_eq_false_of_lt hlt] at hbit
      exact Bool.false_ne_true hbit
    obtain ⟨p, hfu, hpv⟩ := from_u8_of_mem k (hvalid k hk64 hbit)
    refine ⟨p, ?_, ?_, ?_⟩
    · simp [next_pending, hk, hfu]
    · rw [hpv]; exact hbit
    · intro j hj
      exact hlow j (by omega)
  · simp [has_event]

/-- Witness for C3 at the concrete word 4 (bit 2 = UART0 set). -/
theorem next_pending_lowest_bit_witness :
    ((4 : Nat) < U64_MOD ∧ (∀ i, i < 64 → (4 : Nat).testBit i = true → i ∈ prioVals)) ∧
    (has_event 4 = true ↔ (4 : Nat) ≠ 0) :=
  ⟨⟨by decide, by decide⟩, (next_pending_lowest_bit 4 (by decide) (by decide)).2.2.2⟩

theorem rxDrainLoop_no_newline :
    ∀ (bytes data : List Byte) (cap : Nat), 10 ∉ bytes →
      data.length + bytes.length ≤ cap →
      rxDrainLoop bytes ⟨⟨data, cap⟩, false⟩ = (⟨⟨data ++ bytes, cap⟩, false⟩, []) := by
  intro bytes
  induction bytes with
  | nil => intro data cap h10 hlen; simp [rxDrainLoop]
  | cons b rest ih =>
    intro data cap h10 hlen
    simp only [List.mem_cons, not_or] at h10
    obtain ⟨hb, hrest⟩ := h10
    simp only [List.length_cons] at hlen
    have hblt : data.length < cap := by omega
    have hbeq : (b == 10) = false := by
      simp only [beq_eq_false_iff_ne, ne_eq]
      exact fun h => hb h.symm
    by_cases hc : cap ≤ data.length + 1
    · have hrest0 : rest = [] := by
        have : rest.length = 0 := by omega
        exact List.length_eq_zero.mp this
      subst hrest0
      simp [rxDrainLoop, hbeq, RxBuffer.push, hblt, RxBuffer.request_completed, hc]
    · have step : rxDrainLoop (b :: rest) ⟨⟨data, cap⟩, false⟩ =
          rxDrainLoop rest ⟨⟨data ++ [b], cap⟩, false⟩ := by
        simp [rxDrainLoop, hbeq, RxBuffer.push, hblt, RxBuffer.request_completed, hc]
      have hlen' : (data ++ [b]).length + rest.length ≤ cap := by
        simp only [List.length_append, List.length_singleton]; omega
      rw [step, ih (data ++ [b]) cap hrest hlen']
      simp [List.append_assoc]

theorem rxDrainLoop_newline :
    ∀ (pre data : List Byte) (cap : Nat) (post : List Byte), 10 ∉ pre →
      data.length + pre.length + 1 ≤ cap →
      rxDrainLoop (pre ++ 10 :: post) ⟨⟨data, cap⟩, false⟩ =
        (⟨⟨data ++ pre ++ [10] ++
            (if data.length + pre.length + 1 < cap then [0] else []), cap⟩, true⟩, post) := by
  intro pre
  induction pre with
  | nil =>
    intro data cap post h10 hlen
    simp only [List.length_nil, Nat.add_zero] at hlen ⊢
    have hblt : data.length < cap := by omega
    by_cases hfull : data.length + 1 < cap
    · simp [rxDrainLoop, RxBuffer.push, hblt, hfull, List.append_assoc]
    · simp [rxDrainLoop, RxBuffer.push, hblt, hfull, List.append_assoc]
  | cons a pre' ih =>
    intro data cap post h10 hlen
    simp only [List.mem_cons, not_or] at h10
    obtain ⟨ha, hpre⟩ := h10
    simp only [List.length_cons] at hlen
    have hblt : data.length < cap := by omega
    have haeq : (a == 10) = false := by
      simp only [beq_eq_false_iff_ne, ne_eq]
      exact fun h => ha h.symm
    have hnc : ¬ cap ≤ data.length + 1 := by omega
    have step : rxDrainLoop ((a :: pre') ++ 10 :: post) ⟨⟨data, cap⟩, false⟩ =
        rxDrainLoop (pre' ++ 10 :: post) ⟨⟨data ++ [a], cap⟩, false⟩ := by
      simp [rxDrainLoop, haeq, RxBuffer.push, hblt, RxBuffer.request_completed, hnc]
    have hlen' : (data ++ [a]).length + pre'.length + 1 ≤ cap := by
      simp only [List.length_append, List.length_singleton]; omega
    rw [step, ih (data ++ [a]) cap post hpre hlen']
    simp only [List.length_append, List.length_singleton]
    have harith : data.length + 1 + pre'.length + 1 = data.length + (pre'.length + 1) + 1 := by
      omega
    rw [harith]
    simp [List.append_assoc]

/-- C6 counterexample: with a TxRequest already armed (two bytes pending)
and a full TX FIFO, a further `transmit_buffer` call returns SUCCESS, not
Busy, and the new request replaces the armed one. -/
theorem transmit_buffer_rearm_not_busy :
    (transmit_buffer
        ⟨some ⟨[5, 6], 0⟩, none, false, false, false, false, false, [], 0, []⟩
        ⟨[9], 0⟩).1 = ReturnCode.SUCCESS ∧
    (transmit_buffer
        ⟨some ⟨[5, 6], 0⟩, none, false, false, false, false, false, [], 0, []⟩
        ⟨[9], 0⟩).1 ≠ ReturnCode.EBUSY ∧
    (transmit_buffer
        ⟨some ⟨[5, 6], 0⟩, none, false, false, false, false, false, [], 0, []⟩
        ⟨[9], 0⟩).2.tx = some ⟨[9], 0⟩ := by
  refine ⟨by decide, by decide, by decide⟩

/-- C6 (amended): a call to `transmit_buffer` while a TxRequest is armed
does not return Busy: it returns SUCCESS unconditionally and stores the
new request in the `tx` cell, replacing the armed one (which is dropped);
the stored request has advanced by the one optional immediate write. -/
theorem transmit_buffer_always_success (st : UartState) (tx0 newTx : TxRequest)
    (h : st.tx = some tx0) :
    (transmit_buffer st newTx).1 = ReturnCode.SUCCESS ∧
    (transmit_buffer st newTx).2.tx =
      some (if st.tx_fifo_not_full && !newTx.request_completed then newTx.pop.2
            else newTx) := by
  rcases hp : newTx.pop with ⟨ob, tx'⟩
  cases ob <;> constructor <;>
    cases hg : st.tx_fifo_not_full && !newTx.request_completed <;>
      simp [transmit_buffer, hp, hg]

/-- C6 witness: the amended theorem applied at the counterexample state. -/
theorem transmit_buffer_always_success_witness :
    (⟨some ⟨[5, 6], 0⟩, none, false, false, false, false, false, [], 0, []⟩ :
        UartState).tx = some ⟨[5, 6], 0⟩ ∧
    (transmit_buffer
        ⟨some ⟨[5, 6], 0⟩, none, false, false, false, false, false, [], 0, []⟩
        ⟨[9], 0⟩).1 = ReturnCode.SUCCESS :=
  ⟨rfl, (transmit_buffer_always_success _ ⟨[5, 6], 0⟩ ⟨[9], 0⟩ rfl).1⟩

/-- C7 counterexample: capacity c = 1.  Feeding the single byte 0x0A (a
newline at position 0 < c) completes the request with index 1, not
index 0 + 2 = 2 — the NUL cannot be pushed into the already-full buffer.
And feeding k = c = 1 non-newline bytes returns the completed request
instead of leaving it armed with index k. -/
theorem uart_rx_newline_last_slot :
    ((handle_interrupt
        ⟨none, some ⟨⟨[], 1⟩, false⟩, false, false, true, true, false, [10], 8, []⟩).2.1 =
      some ⟨⟨[10], 1⟩, true⟩) ∧
    (RxBuffer.index ⟨[10], 1⟩ = 1 ∧ (1 : Nat) ≠ 0 + 2) ∧
    ((handle_interrupt
        ⟨none, some ⟨⟨[], 1⟩, false⟩, false, false, true, true, false, [65], 8, []⟩).2.1 =
      some ⟨⟨[65], 1⟩, false⟩) ∧
    ((handle_interrupt
        ⟨none, some ⟨⟨[], 1⟩, false⟩, false, false, true, true, false, [65], 8, []⟩).2.2.rx =
      none) := by
  refine ⟨by decide, ⟨by decide, by decide⟩, by decide, by decide⟩

/-- C7 (amended): for an armed RxRequest of capacity c > 0 over the bytes
waiting in the RX FIFO: feeding k < c bytes none of which is a newline
leaves the request armed with index k; feeding k = c such bytes fills the
buffer and completes the request; a newline at position j with j + 2 ≤ c
completes it with `new_line_return` set and index j + 2 (newline plus NUL
terminator); a newline in the last slot (j + 1 = c) completes it with
index c, the NUL being dropped by the full buffer.  On completion the
handler clears the RX and RX-timeout interrupt masks and returns the
request. -/
theorem uart_rx_request_completion (c : Nat) (bytes : List Byte) (st : UartState)
    (hc : 0 < c)
    (harm : st.rx = some ⟨⟨[], c⟩, false⟩)
    (hfifo : st.rx_fifo = bytes)
    (htx : st.tx = none) :
    (10 ∉ bytes → bytes.length < c →
       (handle_interrupt st).2.1 = none ∧
       (handle_interrupt st).2.2.rx = some ⟨⟨bytes, c⟩, false⟩) ∧
    (10 ∉ bytes → bytes.length = c →
       (handle_interrupt st).2.1 = some ⟨⟨bytes, c⟩, false⟩ ∧
       (handle_interrupt st).2.2.rx = none ∧
       (handle_interrupt st).2.2.imsc_rx = false ∧
       (handle_interrupt st).2.2.imsc_rx_timeout = false) ∧
    (∀ pre post, bytes = pre ++ 10 :: post → 10 ∉ pre → pre.length + 2 ≤ c →
       (handle_interrupt st).2.1 = some ⟨⟨pre ++ [10, 0], c⟩, true⟩ ∧
       (handle_interrupt st).2.2.rx = none ∧
       (handle_interrupt st).2.2.imsc_rx = false ∧
       (handle_interrupt st).2.2.imsc_rx_timeout = false) ∧
    (∀ pre post, bytes = pre ++ 10 :: post → 10 ∉ pre → pre.length + 1 = c →
       (handle_interrupt st).2.1 = some ⟨⟨pre ++ [10], c⟩, true⟩ ∧
       (handle_interrupt st).2.2.rx = none) := by
  refine ⟨?_, ?_, ?_, ?_⟩
  · intro h10 hk
    have hdrain := rxDrainLoop_no_newline bytes [] c h10 (by simpa using le_of_lt hk)
    have hncomp : ¬ c ≤ bytes.length := by omega
    simp [handle_interrupt, harm, hfifo, htx, hdrain,
      RxBuffer.request_completed, hncomp]
  · intro h10 hk
    have hdrain := rxDrainLoop_no_newline bytes [] c h10 (by simp [hk])
    have hcomp : c ≤ bytes.length := le_of_eq hk.symm
    simp [handle_interrupt, harm, hfifo, htx, hdrain,
      RxBuffer.request_completed, hcomp]
  · intro pre post hbytes hpre hjc
    subst hbytes
    have hdrain := rxDrainLoop_newline pre [] c post hpre (by simp; omega)
    simp [handle_interrupt, harm, hfifo, htx, hdrain]
    all_goals omega
  · intro pre post hbytes hpre hjc
    subst hbytes
    have hdrain := rxDrainLoop_newline pre [] c post hpre (by simp; omega)
    simp [handle_interrupt, harm, hfifo, htx, hdrain]
    all_goals omega

/-- C7 witness: the amended theorem at capacity 3 with FIFO bytes
[0x41, newline]: the completed request carries [0x41, 0x0A, 0x00]. -/
theorem uart_rx_request_completion_witness :
    ((0 : Nat) < 3 ∧ ([65, 10] : List Byte) = [65] ++ 10 :: [] ∧
      10 ∉ ([65] : List Byte) ∧ ([65] : List Byte).length + 2 ≤ 3) ∧
    (handle_interrupt
        ⟨none, some ⟨⟨[], 3⟩, false⟩, false, false, true, true, false, [65, 10], 8, []⟩).2.1 =
      some ⟨⟨[65, 10, 0], 3⟩, true⟩ :=
  ⟨⟨by decide, by decide, by decide, by decide⟩,
   ((uart_rx_request_completion 3 [65, 10]
      ⟨none, some ⟨⟨[], 3⟩, false⟩, false, false, true, true, false, [65, 10], 8, []⟩
      (by decide) rfl rfl rfl).2.2.1 [65] [] (by decide) (by decide) (by decide)).1⟩

/-- C8 counterexample: a TxRequest with two remaining bytes and a TX FIFO
with eight free slots: one invocation of `handle_interrupt` writes exactly
one byte to the data register and leaves the request armed with one byte
remaining — it does not drain the FIFO's worth of bytes. -/
theorem uart_tx_one_byte_only :
    ((handle_interrupt
        ⟨some ⟨[1, 2], 0⟩, none, true, true, false, false, false, [], 8, []⟩).1 = none) ∧
    ((handle_interrupt
        ⟨some ⟨[1, 2], 0⟩, none, true, true, false, false, false, [], 8, []⟩).2.2.tx =
      some ⟨[1, 2], 1⟩) ∧
    ((handle_interrupt
        ⟨some ⟨[1, 2], 0⟩, none, true, true, false, false, false, [], 8, []⟩).2.2.dr_writes =
      [1]) ∧
    ([1] ≠ ([1, 2] : List Byte)) := by
  refine ⟨by decide, by decide, by decide, by decide⟩

/-- C8 (amended): with a TxRequest armed, one invocation of
`handle_interrupt` writes at most one byte: nothing when the FIFO is full
or the request is already completed, exactly the byte at the request's
index otherwise; the request is returned — with the TX and
end-of-transmission masks cleared — exactly when it has become (or
already was) completed, and is re-armed advanced by one byte otherwise. -/
theorem uart_tx_single_byte (st : UartState) (tx : TxRequest)
    (htx : st.tx = some tx) (hrx : st.rx = none) :
    ((handle_interrupt st).2.2.dr_writes.length ≤ st.dr_writes.length + 1) ∧
    (tx.request_completed = true →
       (handle_interrupt st).1 = some tx ∧
       (handle_interrupt st).2.2.dr_writes = st.dr_writes ∧
       (handle_interrupt st).2.2.imsc_tx = false ∧
       (handle_interrupt st).2.2.imsc_eot = false ∧
       (handle_interrupt st).2.2.tx = none) ∧
    (st.tx_fifo_not_full = false → tx.request_completed = false →
       (handle_interrupt st).1 = none ∧
       (handle_interrupt st).2.2.dr_writes = st.dr_writes ∧
       (handle_interrupt st).2.2.tx = some tx) ∧
    (st.tx_fifo_not_full = true → tx.request_completed = false →
       (handle_interrupt st).2.2.dr_writes = st.dr_writes ++ [tx.buf.getD tx.index 0] ∧
       (tx.pop.2.request_completed = true →
          (handle_interrupt st).1 = some tx.pop.2 ∧
          (handle_interrupt st).2.2.imsc_tx = false ∧
          (handle_interrupt st).2.2.imsc_eot = false ∧
          (handle_interrupt st).2.2.tx = none) ∧
       (tx.pop.2.request_completed = false →
          (handle_interrupt st).1 = none ∧
          (handle_interrupt st).2.2.tx = some tx.pop.2)) := by
  have hpop : tx.request_completed = false →
      tx.pop = (some (tx.buf.getD tx.index 0), { tx with index := tx.index + 1 }) := by
    intro hcomp
    have : tx.index < tx.buf.length := by
      simp [TxRequest.request_completed] at hcomp; omega
    simp [TxRequest.pop, this]
  refine ⟨?_, ?_, ?_, ?_⟩
  · cases hg : st.tx_fifo_not_full with
    | false =>
      have hg' : (st.tx_fifo_space != 0) = false := by
        simpa [UartState.tx_fifo_not_full] using hg
      cases hcomp : tx.request_completed <;>
        simp [handle_interrupt, htx, hrx, UartState.tx_fifo_not_full, hg', hcomp,
          UartState.write] <;> omega
    | true =>
      have hg' : (st.tx_fifo_space != 0) = true := by
        simpa [UartState.tx_fifo_not_full] using hg
      cases hcomp : tx.request_completed with
      | true =>
        simp [handle_interrupt, htx, hrx, UartState.tx_fifo_not_full, hg', hcomp,
          UartState.write]
      | false =>
        cases hcomp2 : ({ tx with index := tx.index + 1 } : TxRequest).request_completed <;>
          simp [handle_interrupt, htx, hrx, UartState.tx_fifo_not_full, hg', hcomp,
            hpop hcomp, hcomp2, UartState.write] <;> omega
  · intro hcomp
    cases hg : st.tx_fifo_not_full with
    | false =>
      have hg' : (st.tx_fifo_space != 0) = false := by
        simpa [UartState.tx_fifo_not_full] using hg
      simp [handle_interrupt, htx, hrx, UartState.tx_fifo_not_full, hg', hcomp,
        UartState.write]
    | true =>
      have hg' : (st.tx_fifo_space != 0) = true := by
        simpa [UartState.tx_fifo_not_full] using hg
      simp [handle_interrupt, htx, hrx, UartState.tx_fifo_not_full, hg', hcomp,
        UartState.write]
  · intro hg hcomp
    have hg' : (st.tx_fifo_space != 0) = false := by
      simpa [UartState.tx_fifo_not_full] using hg
    simp [handle_interrupt, htx, hrx, UartState.tx_fifo_not_full, hg', hcomp,
      UartState.write]
  · intro hg hcomp
    have hg' : (st.tx_fifo_space != 0) = true := by
      simpa [UartState.tx_fifo_not_full] using hg
    rw [hpop hcomp]
    cases hcomp2 : ({ tx with index := tx.index + 1 } : TxRequest).request_completed <;>
      simp [handle_interrupt, htx, hrx, UartState.tx_fifo_not_full, hg', hcomp,
        hpop hcomp, hcomp2, UartState.write]

/-- C8 witness: the amended theorem at a one-byte request with FIFO room:
the byte is written and the completed request returned. -/
theorem uart_tx_single_byte_witness :
    ((⟨some ⟨[7], 0⟩, none, true, true, false, false, false, [], 8, []⟩ :
        UartState).tx = some ⟨[7], 0⟩) ∧
    (handle_interrupt
        ⟨some ⟨[7], 0⟩, none, true, true, false, false, false, [], 8, []⟩).2.2.dr_writes =
      [] ++ [(⟨[7], 0⟩ : TxRequest).buf.getD 0 0] :=
  ⟨rfl,
   ((uart_tx_single_byte
      ⟨some ⟨[7], 0⟩, none, true, true, false, false, false, [], 8, []⟩
      ⟨[7], 0⟩ rfl rfl).2.2.2 (by decide) (by decide)).1⟩

/-- C4: `transmit(buf, len)` with len > 240 returns (NoSupport, Some buf)
synchronously and submits no command (the state, including the submitted
command log, is unchanged); with len ≤ 240 and a transmission in flight it
returns (Busy, Some buf); otherwise it returns (Success, None), stores the
buffer in the `tx_buf` cell, submits the TX command, and the buffer is
held until `command_done` hands it to the TxClient via `transmit_event`. -/
theorem radio_transmit_contract (st : RadioState) (buf : List Byte) (len : Nat) :
    (240 < len → transmit st buf len = ((.ENOSUPPORT, some buf), st)) ∧
    (len ≤ 240 → st.tx_buf = none →
       (transmit st buf len).1 = (.SUCCESS, none) ∧
       (transmit st buf len).2.tx_buf = some buf ∧
       (transmit st buf len).2.submitted = st.submitted ++ [⟨0x3801, len, buf.take len⟩] ∧
       (st.has_tx_client = true →
          (command_done (transmit st buf len).2).1 = some (buf, .SUCCESS) ∧
          (command_done (transmit st buf len).2).2.tx_buf = none)) ∧
    (len ≤ 240 → st.tx_buf.isSome = true →
       transmit st buf len = ((.EBUSY, some buf), st)) := by
  refine ⟨?_, ?_, ?_⟩
  · intro h
    simp [transmit, h]
  · intro h1 h2
    have hn : ¬ 240 < len := by omega
    refine ⟨?_, ?_, ?_, ?_⟩
    · simp [transmit, hn, h2, replace_and_send_tx_buffer]
    · simp [transmit, hn, h2, replace_and_send_tx_buffer]
    · simp [transmit, hn, h2, replace_and_send_tx_buffer]
    · intro hclient
      by_cases hpd : st.schedule_powerdown <;>
        simp [transmit, hn, h2, replace_and_send_tx_buffer, command_done,
          power_down, hpd, hclient]
  · intro h1 h2
    have hn : ¬ 240 < len := by omega
    rcases hb : st.tx_buf with _ | b0
    · rw [hb] at h2; simp at h2
    · simp [transmit, hn, hb]

/-- C4 witness: a 3-byte transmit on an idle radio with a TxClient
installed succeeds. -/
theorem radio_transmit_contract_witness :
    ((3 : Nat) ≤ 240 ∧ ({ radioNew with has_tx_client := true } : RadioState).tx_buf = none) ∧
    (transmit { radioNew with has_tx_client := true } [1, 2, 3] 3).1 =
      (ReturnCode.SUCCESS, none) :=
  ⟨⟨by decide, rfl⟩,
   ((radio_transmit_contract { radioNew with has_tx_client := true } [1, 2, 3] 3).2.1
      (by decide) rfl).1⟩

/-- C5: the claim says `rx_nok` invokes `receive_event` exactly as `rx_ok`
does but with crc_valid = false.  Evaluated with an RxClient installed:
`rx_nok` passes crc_valid = true (the source writes `let crc_valid =
true;`), not false as the spec prescribes, and it also hands over the raw
600-byte RX_BUF where `rx_ok` hands over the 255-byte RX_PAYLOAD copy. -/
theorem rx_nok_passes_crc_true :
    (rx_nok { radioNew with has_rx_client := true }).1 =
      some ⟨RadioRxBuf.RX_BUF, 600, true, ReturnCode.SUCCESS⟩ ∧
    Option.map RxEvent.crc_valid (rx_nok { radioNew with has_rx_client := true }).1 =
      some true ∧
    Option.map RxEvent.crc_valid (rx_nok_spec { radioNew with has_rx_client := true }).1 =
      some false ∧
    Option.map RxEvent.buf (rx_ok { radioNew with has_rx_client := true }).1 =
      some RadioRxBuf.RX_PAYLOAD := by
  refine ⟨by decide, by decide, by decide, by decide⟩

/-- C10: with a Skyworks PA, `set_tx_power` stores `min power 0x504D`
(clamping any request above 0x504D) and issues direct command 0x0010 with
the clamped value, and the power-up path's `set_pa_restriction` also
leaves the stored power at most 0x504D; with PA None or Internal the
requested value is stored unchanged. -/
theorem radio_tx_power_clamped (st : RadioState) (p : Nat) :
    (st.pa_type = .Skyworks →
       (set_tx_power st p).2.tx_power = min p 0x504D ∧
       (set_tx_power st p).2.tx_power ≤ 0x504D ∧
       (set_tx_power st p).2.direct_cmds = st.direct_cmds ++ [(0x0010, min p 0x504D)] ∧
       (power_up st).tx_power ≤ 0x504D) ∧
    ((st.pa_type = .None ∨ st.pa_type = .Internal) →
       (set_tx_power st p).2.tx_power = p) := by
  constructor
  · intro h
    have hmin : (if 0x504D < p then 0x504D else p) = min p 0x504D := by
      split <;> omega
    refine ⟨?_, ?_, ?_, ?_⟩
    · by_cases hp : 0x504D < p <;>
        simp [set_tx_power, set_pa_restriction, h, hp] <;> omega
    · by_cases hp : 0x504D < p <;>
        simp [set_tx_power, set_pa_restriction, h, hp] <;> omega
    · by_cases hp : 0x504D < p <;>
        simp [set_tx_power, set_pa_restriction, h, hp] <;> omega
    · by_cases hq : 0x504D < st.tx_power <;>
        simp [power_up, set_pa_restriction, h, hq] <;> omega
  · rintro (h | h) <;> simp [set_tx_power, set_pa_restriction, h]

/-- C10 witness: a Skyworks radio asked for power 0x6000 stores 0x504D. -/
theorem radio_tx_power_clamped_witness :
    ({ radioNew with pa_type := PaType.Skyworks } : RadioState).pa_type = PaType.Skyworks ∧
    (set_tx_power { radioNew with pa_type := PaType.Skyworks } 0x6000).2.tx_power =
      min 0x6000 0x504D :=
  ⟨rfl, ((radio_tx_power_clamped { radioNew with pa_type := PaType.Skyworks } 0x6000).1
          rfl).1⟩

/-- C9 counterexample: two processes, process 0's transmission in flight
(`current_app = some 0`), process 1 idle.  A SetNextTx from process 1
returns SUCCESS — its transmission is queued in its grant — rather than
Busy. -/
theorem set_next_tx_queues_with_success :
    (set_next_tx ⟨true, .SUCCESS, .SUCCESS, true⟩
        ⟨[0, 1], fun _ => ⟨none, true, true⟩, some 0, true, 0xAB, []⟩ 1 0).1 =
      ReturnCode.SUCCESS ∧
    (set_next_tx ⟨true, .SUCCESS, .SUCCESS, true⟩
        ⟨[0, 1], fun _ => ⟨none, true, true⟩, some 0, true, 0xAB, []⟩ 1 0).1 ≠
      ReturnCode.EBUSY ∧
    ((set_next_tx ⟨true, .SUCCESS, .SUCCESS, true⟩
        ⟨[0, 1], fun _ => ⟨none, true, true⟩, some 0, true, 0xAB, []⟩ 1 0).2.apps 1).pending_tx =
      some (0xAB, PayloadType.None) ∧
    (set_next_tx ⟨true, .SUCCESS, .SUCCESS, true⟩
        ⟨[0, 1], fun _ => ⟨none, true, true⟩, some 0, true, 0xAB, []⟩ 1 0).2.current_app =
      some 0 := by
  refine ⟨by decide, by decide, ?_, by decide⟩
  simp [set_next_tx, PayloadType.from_cmd, do_next_tx_sync, get_next_tx_if_idle,
    HeliumState.updApp]
  decide

/-- C9 (amended): while `current_app` is set, a SetNextTx from a process
with no pending transmission of its own queues `(device_id & 0xFF, payload
type)` in that process's grant and returns SUCCESS (the transmission is
deferred, not rejected); Busy is returned exactly when the calling process
itself already has a pending transmission, leaving the state unchanged. -/
theorem set_next_tx_busy_only_own_pending (dev : DeviceOracle) (st : HeliumState)
    (b pt : Nat) (pl : PayloadType)
    (hcur : st.current_app.isSome = true) :
    ((st.apps b).pending_tx = none → PayloadType.from_cmd pt = some pl →
       (set_next_tx dev st b pt).1 = ReturnCode.SUCCESS ∧
       ((set_next_tx dev st b pt).2.apps b).pending_tx =
         some (st.device_id &&& 0xFF, pl) ∧
       (set_next_tx dev st b pt).2.current_app = st.current_app) ∧
    ((st.apps b).pending_tx.isSome = true →
       set_next_tx dev st b pt = (ReturnCode.EBUSY, st)) := by
  constructor
  · intro hpend hfu
    have h1 : (st.apps b).pending_tx.isSome = false := by simp [hpend]
    refine ⟨?_, ?_, ?_⟩ <;>
      simp [set_next_tx, h1, hfu, do_next_tx_sync, get_next_tx_if_idle,
        HeliumState.updApp, hcur]
  · intro hs
    simp [set_next_tx, hs]

/-- C9 witness: the amended theorem at the counterexample state. -/
theorem set_next_tx_busy_only_own_pending_witness :
    ((⟨[0, 1], fun _ => ⟨none, true, true⟩, some 0, true, 0xAB, []⟩ :
        HeliumState).current_app.isSome = true) ∧
    (set_next_tx ⟨true, .SUCCESS, .SUCCESS, true⟩
        ⟨[0, 1], fun _ => ⟨none, true, true⟩, some 0, true, 0xAB, []⟩ 1 0).1 =
      ReturnCode.SUCCESS :=
  ⟨rfl,
   ((set_next_tx_busy_only_own_pending ⟨true, .SUCCESS, .SUCCESS, true⟩
      ⟨[0, 1], fun _ => ⟨none, true, true⟩, some 0, true, 0xAB, []⟩ 1 0
      PayloadType.None rfl).1 rfl rfl).1⟩

end Tock
